import Mathlib

/-!
Verification of the `frameshift` time-scale library against its
natural-language specification.

The development shallowly embeds the Rust sources:

* `src/time/time_delta.rs`  — `TimeDelta<Scale>`, a phantom-tagged wrapper
  around `chrono::TimeDelta`;
* `src/time/epoch_type.rs`  — `Epoch<Scale>`, an instant as a delta from the
  1900-01-01 00:00 reference;
* `src/time/scale.rs`       — the scale markers and the `ToScale` /
  `ToScaleWith` conversion graph;
* `src/provider/mod.rs`     — the `Provider` interface and `EmptyProvider`;
* `src/provider/celestrak.rs` — the tabular Celestrak provider: CSV parsing,
  sorting, lookup and interpolation.

Modelling conventions: Rust machine integers become `Int` (the only
overflow-sensitive operation reached by the claims is
`chrono::TimeDelta::new`, whose explicit range check is modelled);
`f64` field values are modelled as exact rationals `ℚ` (the claims
exercised at rational values are evaluated only at inputs where IEEE-754
double arithmetic is exact); fallible code returns `Option` / `Except`;
panicking code returns a junk default at the panic site, and the theorems
show the panic site is not reached.
-/

namespace Frameshift

/-! ## The chrono layer

`chrono::TimeDelta` (the `delta` field of the crate's `TimeDelta<S>`) stores
a signed number of seconds plus a sub-second nanosecond part kept normalized
into `[0, 1_000_000_000)`, bounded to ±`i64::MAX` milliseconds. -/

/-- Nanoseconds per second (`NANOS_PER_SEC` in `src/time/mod.rs`). -/
def NANOS_PER_SEC : Int := 1000000000

/-- Nanoseconds per millisecond (`NANOS_PER_MILLI` in `src/time/mod.rs`). -/
def NANOS_PER_MILLI : Nat := 1000000

/-- Seconds per day (`SECS_PER_DAY`, used by `TimeDelta::from_days`). -/
def SECS_PER_DAY : Int := 86400

/-- Model of `chrono::TimeDelta`: `secs` seconds plus `nanos` nanoseconds.
chrono keeps `nanos` normalized into `[0, NANOS_PER_SEC)`; that invariant is
the predicate `ChronoDelta.wf` below, not a structure field, so that raw
values remain first-class. -/
structure ChronoDelta where
  secs : Int
  nanos : Int
deriving DecidableEq, Repr

namespace ChronoDelta

/-- chrono's `TimeDelta::MAX`: `i64::MAX` milliseconds, normalized. -/
def MAX : ChronoDelta := ⟨9223372036854775, 807000000⟩

/-- chrono's `TimeDelta::MIN`: `i64::MIN` milliseconds, normalized. -/
def MIN : ChronoDelta := ⟨-9223372036854776, 192000000⟩

/-- chrono's checked constructor `TimeDelta::new(secs: i64, nanos: u32)`:
rejects a sub-second part of a second or more and values outside
`[MIN, MAX]`, otherwise stores the pair unchanged. -/
def new (secs : Int) (nanos : Nat) : Option ChronoDelta :=
  if secs < MIN.secs ∨ secs > MAX.secs ∨ (nanos : Int) ≥ NANOS_PER_SEC
      ∨ (secs = MAX.secs ∧ (nanos : Int) > MAX.nanos)
      ∨ (secs = MIN.secs ∧ (nanos : Int) < MIN.nanos)
  then none
  else some ⟨secs, (nanos : Int)⟩

/-- chrono's `num_seconds`: whole seconds, truncated toward zero. -/
def num_seconds (d : ChronoDelta) : Int :=
  if d.secs < 0 ∧ 0 < d.nanos then d.secs + 1 else d.secs

/-- chrono's `subsec_nanos`: the sub-second part, signed like the whole. -/
def subsec_nanos (d : ChronoDelta) : Int :=
  if d.secs < 0 ∧ 0 < d.nanos then d.nanos - NANOS_PER_SEC else d.nanos

/-- chrono's addition: componentwise sum with a carry out of the
nanosecond part (the out-of-range panic of the `Add` impl is not modelled;
no claim exercises it). -/
def add (a b : ChronoDelta) : ChronoDelta :=
  let secs := a.secs + b.secs
  let nanos := a.nanos + b.nanos
  if nanos ≥ NANOS_PER_SEC then ⟨secs + 1, nanos - NANOS_PER_SEC⟩
  else ⟨secs, nanos⟩

/-- chrono's subtraction: componentwise difference with a borrow into the
nanosecond part. -/
def sub (a b : ChronoDelta) : ChronoDelta :=
  let secs := a.secs - b.secs
  let nanos := a.nanos - b.nanos
  if nanos < 0 then ⟨secs - 1, nanos + NANOS_PER_SEC⟩
  else ⟨secs, nanos⟩

/-- chrono's derived lexicographic strict order on `(secs, nanos)`. -/
def ltB (a b : ChronoDelta) : Bool :=
  decide (a.secs < b.secs ∨ (a.secs = b.secs ∧ a.nanos < b.nanos))

/-- chrono's derived lexicographic order on `(secs, nanos)`. -/
def leB (a b : ChronoDelta) : Bool :=
  decide (a.secs < b.secs ∨ (a.secs = b.secs ∧ a.nanos ≤ b.nanos))

/-- The type invariant every Rust-constructible `chrono::TimeDelta`
satisfies: a normalized sub-second part and the `[MIN, MAX]` range
(exactly the values `ChronoDelta.new` accepts). -/
def wf (d : ChronoDelta) : Prop :=
  0 ≤ d.nanos ∧ d.nanos < NANOS_PER_SEC
    ∧ (MIN.secs < d.secs ∨ (MIN.secs = d.secs ∧ MIN.nanos ≤ d.nanos))
    ∧ (d.secs < MAX.secs ∨ (d.secs = MAX.secs ∧ d.nanos ≤ MAX.nanos))

instance (d : ChronoDelta) : Decidable d.wf := by
  unfold wf; infer_instance

end ChronoDelta

/-! ## The crate's `TimeDelta<S>` (src/time/time_delta.rs) -/

/-- `TimeDelta<Scale>`: a signed difference between two epochs, tagged with a
phantom scale type. -/
structure TimeDelta (S : Type) where
  delta : ChronoDelta
deriving DecidableEq, Repr

namespace TimeDelta

/-- `TimeDelta::from_chrono`. -/
def from_chrono {S : Type} (delta : ChronoDelta) : TimeDelta S := ⟨delta⟩

/-- `TimeDelta::to_chrono`. -/
def to_chrono {S : Type} (d : TimeDelta S) : ChronoDelta := d.delta

/-- `TimeDelta::new(secs, nanos)`: delegates to the chrono constructor. -/
def new {S : Type} (secs : Int) (nanos : Nat) : Option (TimeDelta S) :=
  match ChronoDelta.new secs nanos with
  | some delta => some (from_chrono delta)
  | none => none

/-- `TimeDelta::to_raw`: recover the `(secs, nanos)` construction arguments,
borrowing one second when the signed sub-second part is negative so the
nanosecond component lands in `[0, 1_000_000_000)`. -/
def to_raw {S : Type} (d : TimeDelta S) : Int × Int :=
  let secs := d.delta.num_seconds
  let nanos := d.delta.subsec_nanos
  if nanos < 0 then (secs - 1, nanos + NANOS_PER_SEC)
  else (secs, nanos)

/-- `TimeDelta::to_seconds` (an `f64` in Rust, exact rational here). -/
def to_seconds {S : Type} (d : TimeDelta S) : ℚ :=
  ((d.to_raw).1 : ℚ) + ((d.to_raw).2 : ℚ) / (NANOS_PER_SEC : ℚ)

/-- `TimeDelta::from_seconds`: floor into whole seconds plus nanosecond
remainder (the `unreachable!` arm of the source is a junk default here). -/
def from_seconds {S : Type} (seconds : ℚ) : TimeDelta S :=
  let secs : Int := ⌊seconds⌋
  let nanos : ℚ := (seconds - (secs : ℚ)) * (NANOS_PER_SEC : ℚ)
  match new secs ⌊nanos⌋.toNat with
  | some delta => delta
  | none => from_chrono ⟨0, 0⟩

/-- `TimeDelta::from_days`. -/
def from_days {S : Type} (days : ℚ) : TimeDelta S :=
  from_seconds (days * (SECS_PER_DAY : ℚ))

/-- `TimeDelta::transmute` (called from `Epoch::transmute`; its body is not
among the provided sources). Modelled from the spec: reinterpreting a
duration's scale tag without changing its numeric value. -/
def transmute {S T : Type} (d : TimeDelta S) : TimeDelta T :=
  from_chrono d.to_chrono

/-- The `Add` impl for `TimeDelta<S>` (same-scale only). -/
def add {S : Type} (a b : TimeDelta S) : TimeDelta S :=
  from_chrono (a.delta.add b.delta)

/-- The `Sub` impl for `TimeDelta<S>` (same-scale only). -/
def sub {S : Type} (a b : TimeDelta S) : TimeDelta S :=
  from_chrono (a.delta.sub b.delta)

end TimeDelta

/-! ## The crate's `Epoch<S>` (src/time/epoch_type.rs) -/

/-- `Epoch<Scale>`: an instant, stored as the delta from the crate's
reference moment (1900-01-01 00:00, `FRAMESHIFT_0`) measured in scale `S`. -/
structure Epoch (S : Type) where
  delta : TimeDelta S
deriving DecidableEq, Repr

instance {S : Type} : Inhabited (Epoch S) := ⟨⟨⟨⟨0, 0⟩⟩⟩⟩

namespace Epoch

/-- `Epoch::from_frameshift`. -/
def from_frameshift {S : Type} (delta : TimeDelta S) : Epoch S := ⟨delta⟩

/-- `Epoch::to_frameshift`. -/
def to_frameshift {S : Type} (e : Epoch S) : TimeDelta S := e.delta

/-- `Epoch::transmute`: reinterpret the scale tag of the underlying delta. -/
def transmute {S T : Type} (e : Epoch S) : Epoch T :=
  from_frameshift e.to_frameshift.transmute

/-- The chrono difference `MODIFIED_JULIAN_DAY_0 - FRAMESHIFT_0`:
1858-11-17 00:00 is 15020 days before 1900-01-01 00:00. -/
def MJD0_MINUS_FRAMESHIFT0 : ChronoDelta := ⟨-1297728000, 0⟩

/-- `Epoch::from_name_delta` specialized to `MODIFIED_JULIAN_DAY_0`, i.e.
`Epoch::from_modified_julian_day`. -/
def from_modified_julian_day {S : Type} (delta : TimeDelta S) : Epoch S :=
  from_frameshift ((TimeDelta.from_chrono MJD0_MINUS_FRAMESHIFT0).add delta)

/-- The `Add<TimeDelta<S>>` impl for `Epoch<S>`. -/
def add {S : Type} (e : Epoch S) (rhs : TimeDelta S) : Epoch S :=
  from_frameshift (e.to_frameshift.add rhs)

/-- The `Sub<TimeDelta<S>>` impl for `Epoch<S>`. -/
def sub {S : Type} (e : Epoch S) (rhs : TimeDelta S) : Epoch S :=
  from_frameshift (e.to_frameshift.sub rhs)

/-- The `Sub<Epoch<S>>` impl for `Epoch<S>`: an epoch difference is a delta. -/
def sub_epoch {S : Type} (e rhs : Epoch S) : TimeDelta S :=
  e.delta.sub rhs.delta

/-- The derived lexicographic strict order on epochs. -/
def ltB {S : Type} (a b : Epoch S) : Bool :=
  ChronoDelta.ltB a.delta.delta b.delta.delta

/-- The derived lexicographic order on epochs. -/
def leB {S : Type} (a b : Epoch S) : Bool :=
  ChronoDelta.leB a.delta.delta b.delta.delta

end Epoch

/-! ## Scale markers and the provider interface -/

/-- International Atomic Time marker (`struct TAI`). -/
structure TAI where
deriving DecidableEq, Repr

/-- Terrestrial Time marker (`struct TT`). -/
structure TT where
deriving DecidableEq, Repr

/-- GPS Time marker (`struct GPS`). -/
structure GPS where
deriving DecidableEq, Repr

/-- Coordinated Universal Time marker (`struct UTC`). -/
structure UTC where
deriving DecidableEq, Repr

/-- The `Provider` trait (src/provider/mod.rs): the two leap-offset lookups
every provider supplies, each possibly absent. -/
structure Provider where
  tai_utc_for_utc : Epoch UTC → Option (TimeDelta TAI)
  tai_utc_for_tai : Epoch TAI → Option (TimeDelta TAI)

/-- `EmptyProvider`: always absent. -/
def EmptyProvider : Provider := ⟨fun _ => none, fun _ => none⟩

/-! ## The conversion graph (src/time/scale.rs)

Rust expresses the graph as the `ToScaleWith` / `ToScale` trait impls; here
each impl is a named function. `..._with` functions are the `ToScaleWith`
impls (provider-based, possibly absent); the corresponding plain functions
are the `ToScale` impls (stateless). A `ToScale` impl without an override
uses the trait's default body `self.to_scale_with(&EmptyProvider).unwrap()`;
`unwrap` is modelled by `Option.get!`, whose panic arm returns the `Default`
epoch — the claims show the arm is never taken. -/

/-- The `const fn time_delta` helper of scale.rs (panics on a bad pair;
junk default here, never reached at the constants used). -/
def time_delta {S : Type} (secs : Int) (nanos : Nat) : TimeDelta S :=
  match TimeDelta.new secs nanos with
  | some delta => delta
  | none => ⟨⟨0, 0⟩⟩

/-- `TT_TAI_OFFSET = time_delta(32, 184 * NANOS_PER_MILLI)`. -/
def TT_TAI_OFFSET : TimeDelta TT := time_delta 32 (184 * NANOS_PER_MILLI)

/-- `GPS_TAI_OFFSET = time_delta(-19, 0)`. -/
def GPS_TAI_OFFSET : TimeDelta GPS := time_delta (-19) 0

/-- The blanket identity impl `ToScaleWith<S> for Epoch<S>`. -/
def to_scale_with_self {S : Type} (e : Epoch S) (_provider : Provider) :
    Option (Epoch S) :=
  some e

/-- The blanket identity impl `ToScale<S> for Epoch<S>` (default body). -/
def to_scale_self {S : Type} (e : Epoch S) : Epoch S :=
  (to_scale_with_self e EmptyProvider).get!

/-- `ToScaleWith<TT> for Epoch<TAI>`. -/
def tai_to_tt_with (e : Epoch TAI) (_provider : Provider) :
    Option (Epoch TT) :=
  some (Epoch.add e.transmute TT_TAI_OFFSET)

/-- `ToScale<TT> for Epoch<TAI>` (default body). -/
def tai_to_tt (e : Epoch TAI) : Epoch TT :=
  (tai_to_tt_with e EmptyProvider).get!

/-- `ToScaleWith<TAI> for Epoch<TT>`. -/
def tt_to_tai_with (e : Epoch TT) (_provider : Provider) :
    Option (Epoch TAI) :=
  some (Epoch.transmute (e.sub TT_TAI_OFFSET))

/-- `ToScale<TAI> for Epoch<TT>` (default body). -/
def tt_to_tai (e : Epoch TT) : Epoch TAI :=
  (tt_to_tai_with e EmptyProvider).get!

/-- `ToScaleWith<GPS> for Epoch<TAI>`. -/
def tai_to_gps_with (e : Epoch TAI) (_provider : Provider) :
    Option (Epoch GPS) :=
  some (Epoch.add e.transmute GPS_TAI_OFFSET)

/-- `ToScale<GPS> for Epoch<TAI>` (default body). -/
def tai_to_gps (e : Epoch TAI) : Epoch GPS :=
  (tai_to_gps_with e EmptyProvider).get!

/-- `ToScaleWith<TAI> for Epoch<GPS>`. -/
def gps_to_tai_with (e : Epoch GPS) (_provider : Provider) :
    Option (Epoch TAI) :=
  some (Epoch.transmute (e.sub GPS_TAI_OFFSET))

/-- `ToScale<TAI> for Epoch<GPS>` (default body). -/
def gps_to_tai (e : Epoch GPS) : Epoch TAI :=
  (gps_to_tai_with e EmptyProvider).get!

/-- Two-hop `ToScaleWith<GPS> for Epoch<TT>` via TAI
(`impl_to_tai_family!(ToScale, TT)` expanding `impl_to_via!`): first hop,
then second, propagating absence. -/
def tt_to_gps_with (e : Epoch TT) (provider : Provider) :
    Option (Epoch GPS) :=
  match tt_to_tai_with e provider with
  | some middle => tai_to_gps_with middle provider
  | none => none

/-- Two-hop `ToScale<GPS> for Epoch<TT>` (overridden body: stateless hop
then stateless hop). -/
def tt_to_gps (e : Epoch TT) : Epoch GPS :=
  tai_to_gps (tt_to_tai e)

/-- Two-hop `ToScaleWith<TT> for Epoch<GPS>` via TAI. -/
def gps_to_tt_with (e : Epoch GPS) (provider : Provider) :
    Option (Epoch TT) :=
  match gps_to_tai_with e provider with
  | some middle => tai_to_tt_with middle provider
  | none => none

/-- Two-hop `ToScale<TT> for Epoch<GPS>` (overridden body). -/
def gps_to_tt (e : Epoch GPS) : Epoch TT :=
  tai_to_tt (gps_to_tai e)

/-- `ToScaleWith<UTC> for Epoch<TAI>`: delegates to the provider. -/
def tai_to_utc_with (e : Epoch TAI) (provider : Provider) :
    Option (Epoch UTC) :=
  match provider.tai_utc_for_tai e with
  | some tai_utc => some (Epoch.transmute (e.sub tai_utc))
  | none => none

/-- `ToScaleWith<TAI> for Epoch<UTC>`: delegates to the provider. -/
def utc_to_tai_with (e : Epoch UTC) (provider : Provider) :
    Option (Epoch TAI) :=
  match provider.tai_utc_for_utc e with
  | some tai_utc => some (Epoch.add e.transmute tai_utc)
  | none => none

/-! ## The Celestrak tabular provider (src/provider/celestrak.rs) -/

/-- The provenance flag (source enum `Type`; renamed because `Type` is a
Lean keyword). -/
inductive DataType where
  | Observed
  | Predicted
deriving DecidableEq, Repr

/-- `Type::merge`: `Predicted` dominates. -/
def DataType.merge : DataType → DataType → DataType
  | .Observed, .Observed => .Observed
  | .Observed, .Predicted => .Predicted
  | .Predicted, _ => .Predicted

/-- `Type`'s `FromStr` impl: `"O"` observed, `"P"` predicted, all else a
parse failure. -/
def DataType.from_str (s : String) : Option DataType :=
  match s with
  | "O" => some .Observed
  | "P" => some .Predicted
  | _ => none

/-- One parsed Celestrak record (`struct Entry`); the `f64` fields are
exact rationals here. -/
structure Entry where
  time_utc : Epoch UTC
  x : ℚ
  y : ℚ
  ut1_utc : ℚ
  lod : ℚ
  dpsi : ℚ
  deps : ℚ
  dx : ℚ
  dy : ℚ
  tai_utc : Int
  data_type : DataType
deriving DecidableEq, Repr

/-- `Entry::lerp(self, other, t)`: weight `g1 = t / (other - self)` measured
in seconds on the civil gap, `g0 = 1 - g1`; the leap offset and timestamp
are the earlier record's, the continuous fields are combined with `g0`/`g1`,
and the provenance flags are merged. -/
def Entry.lerp {S : Type} (self other : Entry) (t : TimeDelta S) : Entry :=
  let g1 : ℚ :=
    t.to_seconds / (other.time_utc.sub_epoch self.time_utc).to_seconds
  let g0 : ℚ := 1 - g1
  { tai_utc := self.tai_utc
    time_utc := self.time_utc
    x := g0 * self.x + g1 * other.x
    y := g0 * self.y + g1 * other.y
    ut1_utc := g0 * self.ut1_utc + g1 * other.ut1_utc
    lod := g0 * self.lod + g1 * other.lod
    dpsi := g0 * self.dpsi + g1 * other.dpsi
    deps := g0 * self.deps + g1 * other.deps
    dx := g0 * self.dx + g1 * other.dx
    dy := g0 * self.dy + g1 * other.dy
    data_type := self.data_type.merge other.data_type }

/-- Rust's `Iterator::position`: the index of the first element satisfying
the predicate. -/
def position {α : Type} (p : α → Bool) : List α → Option Nat
  | [] => none
  | a :: l => if p a then some 0 else (position p l).map (· + 1)

/-- `struct CelestrakProvider`: the time-ordered record sequence. -/
structure CelestrakProvider where
  entries : List Entry
deriving DecidableEq, Repr

/-- The sort key `from_entries` uses (`sort_by_key(|e| e.time_utc)` with the
derived lexicographic order). -/
def entryLe (a b : Entry) : Bool := Epoch.leB a.time_utc b.time_utc

/-- `CelestrakProvider::from_entries`: stably sort the records by ascending
civil timestamp (Rust's `sort_by_key` is a stable sort; modelled by a
stable insertion sort on the same key order). -/
def CelestrakProvider.from_entries (entries : List Entry) :
    CelestrakProvider :=
  ⟨entries.insertionSort (fun a b => entryLe a b = true)⟩

/-- `CelestrakProvider::get_utc`: find the first record whose civil
timestamp strictly exceeds the query, refuse if it is the first record or
if none exceeds, otherwise interpolate between it and its predecessor with
delta `t - entries[idx].time_utc`. The direct indexing of the source cannot
fail (`position` returns an in-range index); the unreachable arm returns
`none`. -/
def CelestrakProvider.get_utc (self : CelestrakProvider) (t : Epoch UTC) :
    Option Entry :=
  match position (fun e => Epoch.ltB t e.time_utc) self.entries with
  | none => none
  | some idx =>
    if idx = 0 then none
    else
      match self.entries[idx - 1]?, self.entries[idx]? with
      | some prev, some cur =>
        some (prev.lerp cur (t.sub_epoch cur.time_utc))
      | _, _ => none

/-! ### CSV parsing

The Rust `from_csv` reads a byte stream, takes the first line as the header
and splits every line on `','`. The embedding takes the stream already read
and split: the input is the list of lines, each a list of comma-separated
fields. The `Error::Read` I/O variant has no counterpart here. -/

/-- The parse error surface (`enum Error` minus the I/O variant). -/
inductive Error where
  | MissingHeader
  | MissingColumn (name : String)
  | MissingField (row : Nat) (name : String)
  | BadParse (row : Nat) (name : String)
deriving DecidableEq, Repr

instance {ε α : Type} [DecidableEq ε] [DecidableEq α] :
    DecidableEq (Except ε α) := fun a b =>
  match a, b with
  | .error e1, .error e2 =>
    if h : e1 = e2 then isTrue (by rw [h]) else isFalse (by simp [h])
  | .error _, .ok _ => isFalse (by simp)
  | .ok _, .error _ => isFalse (by simp)
  | .ok v1, .ok v2 =>
    if h : v1 = v2 then isTrue (by rw [h]) else isFalse (by simp [h])

/-- Rust's `?` operator on `Result`: propagate the error or continue. -/
def qtry {ε α β : Type} (x : Except ε α) (f : α → Except ε β) : Except ε β :=
  match x with
  | .error e => .error e
  | .ok v => f v

/-- True when every character is an ASCII digit. -/
def all_digits (cs : List Char) : Bool := cs.all Char.isDigit

/-- The value of a digit string, most significant first. -/
def digits_val (cs : List Char) : Nat :=
  cs.foldl (fun acc c => acc * 10 + (c.toNat - '0'.toNat)) 0

/-- A nonempty all-digit string as a natural number. -/
def parse_digits (cs : List Char) : Option Nat :=
  if cs.isEmpty then none
  else if all_digits cs then some (digits_val cs) else none

/-- Models `str::parse::<i64>`: optional sign, digits, `i64` range check. -/
def parse_i64 (s : String) : Option Int :=
  match s.data with
  | '-' :: rest =>
    match parse_digits rest with
    | some n => if n ≤ 9223372036854775808 then some (-(n : Int)) else none
    | none => none
  | '+' :: rest =>
    match parse_digits rest with
    | some n => if n ≤ 9223372036854775807 then some (n : Int) else none
    | none => none
  | cs =>
    match parse_digits cs with
    | some n => if n ≤ 9223372036854775807 then some (n : Int) else none
    | none => none

/-- Models `str::parse::<f64>` on plain decimal literals (optional sign,
integer part, optional fraction; at least one digit), with the value taken
as an exact rational. The exponent, infinity and NaN forms of the Rust
grammar are not modelled; no claim depends on them. -/
def parse_f64 (s : String) : Option ℚ :=
  let core : List Char → Option ℚ := fun cs =>
    match cs.splitOn '.' with
    | [ip] =>
      if ip.isEmpty || !all_digits ip then none
      else some (digits_val ip : ℚ)
    | [ip, fp] =>
      if (ip.isEmpty && fp.isEmpty) || !all_digits ip || !all_digits fp then
        none
      else
        some ((digits_val ip : ℚ)
          + (digits_val fp : ℚ) / ((10 : ℚ) ^ fp.length))
    | _ => none
  match s.data with
  | '-' :: rest => (core rest).map (fun q => -q)
  | '+' :: rest => core rest
  | cs => core cs

/-- The column indices `from_csv` resolves from the header, in resolution
order. -/
structure Columns where
  i_time_utc : Nat
  i_x : Nat
  i_y : Nat
  i_ut1_utc : Nat
  i_lod : Nat
  i_dpsi : Nat
  i_deps : Nat
  i_dx : Nat
  i_dy : Nat
  i_tai_utc : Nat
  i_data_type : Nat
deriving DecidableEq, Repr

/-- The `find_column!` macro: position of the named column in the header,
else `MissingColumn`. -/
def find_column (header : List String) (name : String) : Except Error Nat :=
  match position (fun s => s == name) header with
  | some i => .ok i
  | none => .error (.MissingColumn name)

/-- The eleven `find_column!` calls of `from_csv`, in source order. -/
def find_columns (header : List String) : Except Error Columns :=
  qtry (find_column header "MJD") fun i_time_utc =>
  qtry (find_column header "X") fun i_x =>
  qtry (find_column header "Y") fun i_y =>
  qtry (find_column header "UT1-UTC") fun i_ut1_utc =>
  qtry (find_column header "LOD") fun i_lod =>
  qtry (find_column header "DPSI") fun i_dpsi =>
  qtry (find_column header "DEPS") fun i_deps =>
  qtry (find_column header "DX") fun i_dx =>
  qtry (find_column header "DY") fun i_dy =>
  qtry (find_column header "DAT") fun i_tai_utc =>
  qtry (find_column header "DATA_TYPE") fun i_data_type =>
  .ok ⟨i_time_utc, i_x, i_y, i_ut1_utc, i_lod, i_dpsi, i_deps, i_dx, i_dy,
    i_tai_utc, i_data_type⟩

/-- The `get_column!` macro: fetch field `i` of row `rowi`, else
`MissingField`; parse it, else `BadParse`. -/
def get_column {α : Type} (rowi : Nat) (row : List String) (i : Nat)
    (name : String) (parse : String → Option α) : Except Error α :=
  match row[i]? with
  | none => .error (.MissingField rowi name)
  | some s =>
    match parse s with
    | some v => .ok v
    | none => .error (.BadParse rowi name)

/-- The `Entry` struct literal of `from_csv`'s loop body: the eleven
`get_column!` fetches in field order, short-circuiting on the first
failure. -/
def parse_entry (rowi : Nat) (cols : Columns) (row : List String) :
    Except Error Entry :=
  qtry (get_column rowi row cols.i_time_utc "MJD" parse_f64) fun mjd =>
  qtry (get_column rowi row cols.i_x "X" parse_f64) fun x =>
  qtry (get_column rowi row cols.i_y "Y" parse_f64) fun y =>
  qtry (get_column rowi row cols.i_ut1_utc "UT1-UTC" parse_f64) fun u =>
  qtry (get_column rowi row cols.i_lod "LOD" parse_f64) fun lod =>
  qtry (get_column rowi row cols.i_dpsi "DPSI" parse_f64) fun dpsi =>
  qtry (get_column rowi row cols.i_deps "DEPS" parse_f64) fun deps =>
  qtry (get_column rowi row cols.i_dx "DX" parse_f64) fun dx =>
  qtry (get_column rowi row cols.i_dy "DY" parse_f64) fun dy =>
  qtry (get_column rowi row cols.i_tai_utc "DAT" parse_i64) fun tai_utc =>
  qtry (get_column rowi row cols.i_data_type "DATA_TYPE" DataType.from_str)
    fun data_type =>
  .ok { time_utc := Epoch.from_modified_julian_day (TimeDelta.from_days mjd)
        x := x
        y := y
        ut1_utc := u
        lod := lod
        dpsi := dpsi
        deps := deps
        dx := dx
        dy := dy
        tai_utc := tai_utc
        data_type := data_type }

/-- The row loop of `from_csv`: `rowi` is `entries.len()`, the count of
rows parsed so far, so each row is reported under its 0-based index. -/
def parse_rows (cols : Columns) (rowi : Nat) :
    List (List String) → Except Error (List Entry)
  | [] => .ok []
  | row :: rest =>
    qtry (parse_entry rowi cols row) fun entry =>
    qtry (parse_rows cols (rowi + 1) rest) fun entries =>
    .ok (entry :: entries)

/-- `CelestrakProvider::from_csv` over the pre-split line list: header
first (absent header is `MissingHeader`), column resolution, then the row
loop, finally `from_entries`. -/
def CelestrakProvider.from_csv :
    List (List String) → Except Error CelestrakProvider
  | [] => .error .MissingHeader
  | header :: rows =>
    qtry (find_columns header) fun cols =>
    qtry (parse_rows cols 0 rows) fun entries =>
    .ok (CelestrakProvider.from_entries entries)

/-! ## Concrete inputs used to evaluate the claims -/

/-- A civil epoch a whole number of seconds after the reference moment. -/
def utcEpoch (secs : Int) : Epoch UTC := ⟨⟨⟨secs, 0⟩⟩⟩

/-- A record at a whole-second civil timestamp with the given polar-motion
`x` and leap offset; every other continuous field is zero and the record is
observed. -/
def sampleEntry (secs : Int) (xv : ℚ) (dat : Int) : Entry :=
  { time_utc := utcEpoch secs
    x := xv
    y := 0
    ut1_utc := 0
    lod := 0
    dpsi := 0
    deps := 0
    dx := 0
    dy := 0
    tai_utc := dat
    data_type := .Observed }

/-- A concrete delta whose signed representation has a negative sub-second
part (for the raw round-trip witness). -/
def sampleDelta : TimeDelta TAI := ⟨⟨-3, 250000000⟩⟩

/-- The full Celestrak header, in its usual order. -/
def sampleHeader : List String :=
  ["MJD", "X", "Y", "UT1-UTC", "LOD", "DPSI", "DEPS", "DX", "DY", "DAT",
    "DATA_TYPE"]

/-! ## Order and search lemmas -/

theorem entryLe_refl (a : Entry) : entryLe a a = true := by
  simp [entryLe, Epoch.leB, ChronoDelta.leB]

instance : IsTrans Entry (fun a b => entryLe a b = true) := by
  refine ⟨fun a b c hab hbc => ?_⟩
  simp only [entryLe, Epoch.leB, ChronoDelta.leB, decide_eq_true_eq] at *
  omega

instance : IsTotal Entry (fun a b => entryLe a b = true) := by
  refine ⟨fun a b => ?_⟩
  simp only [entryLe, Epoch.leB, ChronoDelta.leB, decide_eq_true_eq]
  omega

theorem position_eq_none_iff {α : Type} (p : α → Bool) (l : List α) :
    position p l = none ↔ ∀ x ∈ l, p x = false := by
  induction l with
  | nil => simp [position]
  | cons a l ih => cases hpa : p a <;> simp [position, hpa, ih]

theorem position_some_of_mem {α : Type} {p : α → Bool} {l : List α} {x : α}
    (hx : x ∈ l) (hpx : p x = true) : ∃ i, position p l = some i := by
  induction l with
  | nil => cases hx
  | cons a l ih =>
    cases hpa : p a
    · rcases List.mem_cons.mp hx with rfl | hx2
      · rw [hpx] at hpa; cases hpa
      · obtain ⟨i, hi⟩ := ih hx2
        exact ⟨i + 1, by simp [position, hpa, hi]⟩
    · exact ⟨0, by simp [position, hpa]⟩

theorem position_some_spec {α : Type} {p : α → Bool} {l : List α} {i : Nat}
    (h : position p l = some i) : ∃ x, l[i]? = some x ∧ p x = true := by
  induction l generalizing i with
  | nil => simp [position] at h
  | cons a l ih =>
    cases hpa : p a <;> simp [position, hpa] at h
    · obtain ⟨j, hj, rfl⟩ := h
      obtain ⟨x, hx, hpx⟩ := ih hj
      exact ⟨x, by simpa using hx, hpx⟩
    · exact h ▸ ⟨a, by simp, hpa⟩

theorem position_some_lt_length {α : Type} {p : α → Bool} {l : List α}
    {i : Nat} (h : position p l = some i) : i < l.length := by
  obtain ⟨x, hx, _⟩ := position_some_spec h
  exact (List.getElem?_eq_some.mp hx).1

theorem position_cons_pos {α : Type} {p : α → Bool} {a : α} {l : List α}
    {i : Nat} (hpa : p a = false) (h : position p (a :: l) = some i) :
    0 < i := by
  simp [position, hpa] at h
  obtain ⟨j, _, rfl⟩ := h
  omega

theorem mem_of_getLast_some {α : Type} :
    ∀ {l : List α} {z : α}, l.getLast? = some z → z ∈ l := by
  intro l
  induction l with
  | nil => intro z h; simp at h
  | cons a l ih =>
    intro z h
    rcases l with _ | ⟨b, l2⟩
    · simp at h
      subst h
      exact List.mem_cons_self a []
    · rw [List.getLast?_cons_cons] at h
      exact List.mem_cons_of_mem _ (ih h)

theorem pairwise_le_getLast {l : List Entry} {z : Entry}
    (hs : l.Pairwise (fun a b => entryLe a b = true))
    (hz : l.getLast? = some z) : ∀ x ∈ l, entryLe x z = true := by
  induction l with
  | nil => simp at hz
  | cons a l ih =>
    rcases List.pairwise_cons.mp hs with ⟨ha, htail⟩
    rcases l with _ | ⟨b, l2⟩
    · simp at hz
      subst hz
      intro x hx
      rcases List.mem_cons.mp hx with rfl | hx2
      · exact entryLe_refl x
      · cases hx2
    · rw [List.getLast?_cons_cons] at hz
      intro x hx
      rcases List.mem_cons.mp hx with rfl | hx2
      · exact ha _ (mem_of_getLast_some hz)
      · exact ih htail hz x hx2

theorem from_entries_sorted (l : List Entry) :
    ((CelestrakProvider.from_entries l).entries).Pairwise
      (fun a b => entryLe a b = true) :=
  List.sorted_insertionSort _ l

theorem qtry_ok {ε α β : Type} (v : α) (f : α → Except ε β) :
    qtry (.ok v) f = f v := rfl

theorem qtry_err {ε α β : Type} (e : ε) (f : α → Except ε β) :
    qtry (.error e) f = .error e := rfl

/-! ## `get_utc` case lemmas -/

theorem get_utc_none_of_all_le {prov : CelestrakProvider} {t : Epoch UTC}
    (h : ∀ e ∈ prov.entries, Epoch.ltB t e.time_utc = false) :
    prov.get_utc t = none := by
  unfold CelestrakProvider.get_utc
  rw [(position_eq_none_iff _ _).mpr h]

theorem get_utc_none_of_head_exceeds {prov : CelestrakProvider}
    {t : Epoch UTC} {e0 : Entry} {rest : List Entry}
    (he : prov.entries = e0 :: rest)
    (h : Epoch.ltB t e0.time_utc = true) : prov.get_utc t = none := by
  unfold CelestrakProvider.get_utc
  rw [he]
  simp [position, h]

theorem get_utc_isSome_of_strict {prov : CelestrakProvider} {t : Epoch UTC}
    {e0 : Entry} {rest : List Entry} {x : Entry}
    (he : prov.entries = e0 :: rest)
    (h0 : Epoch.ltB t e0.time_utc = false)
    (hx : x ∈ prov.entries) (hpx : Epoch.ltB t x.time_utc = true) :
    (prov.get_utc t).isSome = true := by
  obtain ⟨i, hi⟩ :=
    position_some_of_mem (p := fun (e : Entry) => Epoch.ltB t e.time_utc) hx hpx
  have hpos : 0 < i := by
    have hi2 := hi
    rw [he] at hi2
    exact position_cons_pos (p := fun (e : Entry) => Epoch.ltB t e.time_utc) h0 hi2
  have hlen : i < prov.entries.length := position_some_lt_length hi
  have h1 : prov.entries[i - 1]? = some (prov.entries[i - 1]) :=
    List.getElem?_eq_getElem (by omega)
  have h2 : prov.entries[i]? = some (prov.entries[i]) :=
    List.getElem?_eq_getElem hlen
  unfold CelestrakProvider.get_utc
  rw [hi]
  have hne : ¬ i = 0 := by omega
  simp [hne, h1, h2]

theorem ChronoDelta.MIN_secs_eq : ChronoDelta.MIN.secs = -9223372036854776 :=
  rfl

theorem ChronoDelta.MIN_nanos_eq : ChronoDelta.MIN.nanos = 192000000 := rfl

theorem ChronoDelta.MAX_secs_eq : ChronoDelta.MAX.secs = 9223372036854775 :=
  rfl

theorem ChronoDelta.MAX_nanos_eq : ChronoDelta.MAX.nanos = 807000000 := rfl

/-- Adding and then subtracting the same normalized chrono delta is the
identity on normalized values. -/
theorem ChronoDelta.add_sub_cancel_of_wf (d c : ChronoDelta)
    (hd0 : 0 ≤ d.nanos) (hd1 : d.nanos < NANOS_PER_SEC)
    (hc0 : 0 ≤ c.nanos) (hc1 : c.nanos < NANOS_PER_SEC) :
    (d.add c).sub c = d := by
  obtain ⟨ds, dn⟩ := d
  obtain ⟨cs, cn⟩ := c
  simp only [ChronoDelta.add, ChronoDelta.sub, NANOS_PER_SEC] at *
  split <;> split <;> simp_all only [ChronoDelta.mk.injEq] <;> omega

/-! ## The claims -/

/-- C9: `Type::merge` is total over `{Observed, Predicted}`, satisfies the
stated merge table (`Predicted` dominates in either argument order), and is
therefore commutative. -/
theorem merge_table_and_comm :
    DataType.merge .Observed .Observed = .Observed
      ∧ DataType.merge .Observed .Predicted = .Predicted
      ∧ DataType.merge .Predicted .Observed = .Predicted
      ∧ DataType.merge .Predicted .Predicted = .Predicted
      ∧ ∀ a b : DataType, a.merge b = b.merge a := by
  refine ⟨rfl, rfl, rfl, rfl, fun a b => ?_⟩
  cases a <;> cases b <;> rfl

/-- C5: converting an epoch to its own scale is the identity, both through
the stateless path and through any provider (the provider-based result is
present and unchanged). -/
theorem self_conversion_identity :
    ∀ (S : Type) (e : Epoch S),
      to_scale_self e = e
        ∧ ∀ p : Provider, to_scale_with_self e p = some e :=
  fun _ _ => ⟨rfl, fun _ => rfl⟩

/-- C3: for every scale pair with a stateless (`ToScale`) conversion — the
identity pairs, TAI↔TT, TAI↔GPS and the two-hop pairs TT↔GPS through TAI —
the provider-based conversion ignores the provider and returns a present
result equal to the stateless one, for every provider; hence the `unwrap`
in the default `to_scale` body never meets `None`. -/
theorem stateless_pairs_lift :
    (∀ (S : Type) (e : Epoch S) (p : Provider),
      to_scale_with_self e p = some (to_scale_self e))
      ∧ (∀ (e : Epoch TAI) (p : Provider),
        tai_to_tt_with e p = some (tai_to_tt e))
      ∧ (∀ (e : Epoch TT) (p : Provider),
        tt_to_tai_with e p = some (tt_to_tai e))
      ∧ (∀ (e : Epoch TAI) (p : Provider),
        tai_to_gps_with e p = some (tai_to_gps e))
      ∧ (∀ (e : Epoch GPS) (p : Provider),
        gps_to_tai_with e p = some (gps_to_tai e))
      ∧ (∀ (e : Epoch TT) (p : Provider),
        tt_to_gps_with e p = some (tt_to_gps e))
      ∧ (∀ (e : Epoch GPS) (p : Provider),
        gps_to_tt_with e p = some (gps_to_tt e)) :=
  ⟨fun _ _ _ => rfl, fun _ _ => rfl, fun _ _ => rfl, fun _ _ => rfl,
    fun _ _ => rfl, fun _ _ => rfl, fun _ _ => rfl⟩

/-- C6: the stateless TAI→TT→TAI round trip returns the original epoch
exactly, for every epoch whose representation satisfies the chrono
invariant. -/
theorem tai_tt_roundtrip_exact (e : Epoch TAI) (h : e.delta.delta.wf) :
    tt_to_tai (tai_to_tt e) = e := by
  obtain ⟨⟨d⟩⟩ := e
  obtain ⟨h0, h1, _, _⟩ := h
  have hstep : tt_to_tai (tai_to_tt ⟨⟨d⟩⟩)
      = (⟨⟨(d.add TT_TAI_OFFSET.delta).sub TT_TAI_OFFSET.delta⟩⟩ :
          Epoch TAI) := rfl
  rw [hstep]
  have hoff : TT_TAI_OFFSET.delta = ⟨32, 184000000⟩ := by decide
  rw [hoff]
  simp only [Epoch.mk.injEq, TimeDelta.mk.injEq]
  exact ChronoDelta.add_sub_cancel_of_wf d ⟨32, 184000000⟩ h0 h1
    (by decide) (by decide)

/-- C6 witness: the TAI→TT→TAI round trip evaluated at a concrete epoch. -/
theorem tai_tt_roundtrip_exact_witness :
    (⟨⟨⟨100, 500⟩⟩⟩ : Epoch TAI).delta.delta.wf
      ∧ tt_to_tai (tai_to_tt ⟨⟨⟨100, 500⟩⟩⟩) = ⟨⟨⟨100, 500⟩⟩⟩ :=
  ⟨by decide, tai_tt_roundtrip_exact _ (by decide)⟩

/-- C4: on every well-formed delta, `to_raw` yields a nanosecond component
in `[0, 1_000_000_000)` (borrowing one second when the signed sub-second
part is negative) and `TimeDelta::new` on the raw pair reconstructs the
delta exactly. -/
theorem to_raw_new_roundtrip {S : Type} (d : TimeDelta S)
    (h : d.delta.wf) :
    TimeDelta.new (d.to_raw).1 (d.to_raw).2.toNat = some d
      ∧ 0 ≤ (d.to_raw).2 ∧ (d.to_raw).2 < NANOS_PER_SEC := by
  obtain ⟨⟨s, n⟩⟩ := d
  obtain ⟨h0, h1, h2, h3⟩ := h
  simp only [ChronoDelta.MIN_secs_eq, ChronoDelta.MIN_nanos_eq,
    ChronoDelta.MAX_secs_eq, ChronoDelta.MAX_nanos_eq, NANOS_PER_SEC]
    at h0 h1 h2 h3
  have hraw : (TimeDelta.to_raw (⟨⟨s, n⟩⟩ : TimeDelta S)) = (s, n) := by
    simp only [TimeDelta.to_raw, ChronoDelta.num_seconds,
      ChronoDelta.subsec_nanos, NANOS_PER_SEC]
    split_ifs <;> simp only [Prod.mk.injEq] <;> omega
  rw [hraw]
  refine ⟨?_, by simpa [NANOS_PER_SEC] using h0,
    by simpa [NANOS_PER_SEC] using h1⟩
  simp only [TimeDelta.new, ChronoDelta.new, ChronoDelta.MIN_secs_eq,
    ChronoDelta.MIN_nanos_eq, ChronoDelta.MAX_secs_eq,
    ChronoDelta.MAX_nanos_eq, NANOS_PER_SEC]
  split_ifs with hc
  · exact absurd hc (by omega)
  · simp only [TimeDelta.from_chrono, Option.some.injEq, TimeDelta.mk.injEq,
      ChronoDelta.mk.injEq]
    exact ⟨trivial, by omega⟩

/-- C4 witness: the raw round trip at a concrete negative delta (whose
signed sub-second representation is negative, exercising the borrow). -/
theorem to_raw_new_roundtrip_witness :
    sampleDelta.delta.wf
      ∧ (TimeDelta.new (sampleDelta.to_raw).1 (sampleDelta.to_raw).2.toNat
          = some sampleDelta
        ∧ 0 ≤ (sampleDelta.to_raw).2
        ∧ (sampleDelta.to_raw).2 < NANOS_PER_SEC) :=
  ⟨by decide, to_raw_new_roundtrip sampleDelta (by decide)⟩

/-- C2: for a provider built from a non-empty record list — `e0` the
earliest and `eN` the latest record once construction has sorted them — a
civil lookup strictly before `e0`'s timestamp is absent, a lookup at or
after `eN`'s timestamp is absent, and a lookup strictly between the two is
present. -/
theorem get_utc_absence_monotonicity (l : List Entry) (e0 eN : Entry)
    (t : Epoch UTC)
    (h0 : ((CelestrakProvider.from_entries l).entries).head? = some e0)
    (hN : ((CelestrakProvider.from_entries l).entries).getLast? = some eN) :
    (Epoch.ltB t e0.time_utc = true →
      (CelestrakProvider.from_entries l).get_utc t = none)
      ∧ (Epoch.leB eN.time_utc t = true →
        (CelestrakProvider.from_entries l).get_utc t = none)
      ∧ (Epoch.ltB e0.time_utc t = true → Epoch.ltB t eN.time_utc = true →
        ((CelestrakProvider.from_entries l).get_utc t).isSome = true) := by
  have hs := from_entries_sorted l
  cases hE : (CelestrakProvider.from_entries l).entries with
  | nil => rw [hE] at h0; cases h0
  | cons a rest =>
    rw [hE] at h0
    injection h0 with h0
    subst h0
    refine ⟨fun hlt => get_utc_none_of_head_exceeds hE hlt, fun hle => ?_,
      fun hgt hlt => ?_⟩
    · refine get_utc_none_of_all_le fun e he => ?_
      have hmax := pairwise_le_getLast hs hN e he
      simp only [entryLe, Epoch.ltB, Epoch.leB, ChronoDelta.ltB,
        ChronoDelta.leB, decide_eq_true_eq, decide_eq_false_iff_not]
        at hmax hle ⊢
      omega
    · have hmem := mem_of_getLast_some hN
      refine get_utc_isSome_of_strict hE ?_ hmem hlt
      simp only [Epoch.ltB, ChronoDelta.ltB, decide_eq_true_eq,
        decide_eq_false_iff_not] at hgt ⊢
      omega

/-- C2 witness: the three-way absence/presence split evaluated on a
two-record provider at a query strictly inside the span. -/
theorem get_utc_absence_monotonicity_witness :
    (((CelestrakProvider.from_entries
          [sampleEntry 0 0 10, sampleEntry 2 1 11]).entries).head?
        = some (sampleEntry 0 0 10)
      ∧ ((CelestrakProvider.from_entries
          [sampleEntry 0 0 10, sampleEntry 2 1 11]).entries).getLast?
        = some (sampleEntry 2 1 11))
      ∧ ((Epoch.ltB (utcEpoch 1) (sampleEntry 0 0 10).time_utc = true →
          (CelestrakProvider.from_entries
            [sampleEntry 0 0 10, sampleEntry 2 1 11]).get_utc (utcEpoch 1)
            = none)
        ∧ (Epoch.leB (sampleEntry 2 1 11).time_utc (utcEpoch 1) = true →
          (CelestrakProvider.from_entries
            [sampleEntry 0 0 10, sampleEntry 2 1 11]).get_utc (utcEpoch 1)
            = none)
        ∧ (Epoch.ltB (sampleEntry 0 0 10).time_utc (utcEpoch 1) = true →
          Epoch.ltB (utcEpoch 1) (sampleEntry 2 1 11).time_utc = true →
          ((CelestrakProvider.from_entries
            [sampleEntry 0 0 10, sampleEntry 2 1 11]).get_utc
              (utcEpoch 1)).isSome = true)) :=
  ⟨⟨by decide, by decide⟩,
    get_utc_absence_monotonicity _ _ _ _ (by decide) (by decide)⟩

/-- C10: when the sorted entries start at `e0` and some record is strictly
later, the lookup exactly at `e0`'s timestamp is present: the lower
boundary of the data span is inclusive. -/
theorem get_utc_lower_boundary_inclusive (l : List Entry) (e0 : Entry)
    (h0 : ((CelestrakProvider.from_entries l).entries).head? = some e0)
    (hgt : ∃ e ∈ (CelestrakProvider.from_entries l).entries,
      Epoch.ltB e0.time_utc e.time_utc = true) :
    ((CelestrakProvider.from_entries l).get_utc e0.time_utc).isSome
      = true := by
  obtain ⟨x, hx, hlt⟩ := hgt
  cases hE : (CelestrakProvider.from_entries l).entries with
  | nil => rw [hE] at h0; cases h0
  | cons a rest =>
    rw [hE] at h0
    injection h0 with h0
    subst h0
    refine get_utc_isSome_of_strict hE ?_ hx hlt
    simp [Epoch.ltB, ChronoDelta.ltB]

/-- C10 witness: the inclusive lower boundary evaluated on a two-record
provider. -/
theorem get_utc_lower_boundary_inclusive_witness :
    (((CelestrakProvider.from_entries
          [sampleEntry 0 0 10, sampleEntry 2 1 11]).entries).head?
        = some (sampleEntry 0 0 10)
      ∧ ∃ e ∈ (CelestrakProvider.from_entries
          [sampleEntry 0 0 10, sampleEntry 2 1 11]).entries,
        Epoch.ltB (sampleEntry 0 0 10).time_utc e.time_utc = true)
      ∧ ((CelestrakProvider.from_entries
          [sampleEntry 0 0 10, sampleEntry 2 1 11]).get_utc
            (sampleEntry 0 0 10).time_utc).isSome = true :=
  ⟨⟨by decide, by decide⟩,
    get_utc_lower_boundary_inclusive _ _ (by decide) (by decide)⟩

/-- C1: at the instant exactly halfway between two adjacent records the
civil lookup does not return the mean of the continuous fields: the delta
handed to `lerp` is measured from the *later* record (`*t -
entries[idx].time_utc`), so `g1 = (t - t1)/(t1 - t0) = -1/2` and `g0 =
3/2`, producing `1.5·v0 - 0.5·v1`. Evaluated at records two seconds apart
with `x = 0` and `x = 1` and the query at the midpoint (all values exact in
IEEE-754 doubles): the result carries `x = -1/2`, not `1/2`. The
leap-offset field does keep the earlier record's value. -/
theorem get_utc_halfway_not_average :
    ∃ en, (CelestrakProvider.from_entries
        [sampleEntry 0 0 10, sampleEntry 2 1 11]).get_utc (utcEpoch 1)
        = some en
      ∧ en.x = -(1 / 2 : ℚ)
      ∧ en.x ≠ ((sampleEntry 0 0 10).x + (sampleEntry 2 1 11).x) / 2
      ∧ en.tai_utc = 10 := by
  refine ⟨(sampleEntry 0 0 10).lerp (sampleEntry 2 1 11)
    ((utcEpoch 1).sub_epoch (sampleEntry 2 1 11).time_utc), rfl, ?_, ?_, rfl⟩
  · simp only [Entry.lerp, sampleEntry, utcEpoch, Epoch.sub_epoch,
      TimeDelta.sub, TimeDelta.to_seconds, TimeDelta.to_raw,
      TimeDelta.from_chrono, ChronoDelta.sub, ChronoDelta.num_seconds,
      ChronoDelta.subsec_nanos, NANOS_PER_SEC]
    norm_num
  · simp only [Entry.lerp, sampleEntry, utcEpoch, Epoch.sub_epoch,
      TimeDelta.sub, TimeDelta.to_seconds, TimeDelta.to_raw,
      TimeDelta.from_chrono, ChronoDelta.sub, ChronoDelta.num_seconds,
      ChronoDelta.subsec_nanos, NANOS_PER_SEC]
    norm_num

/-- C7: the provider's entry sequence is ascending in the civil timestamp
right after construction, whether built by `from_entries` directly or
through `from_csv`; the value is immutable afterwards (the lookup API is
pure). -/
theorem entries_sorted_after_construction :
    (∀ l : List Entry,
      ((CelestrakProvider.from_entries l).entries).Pairwise
        (fun a b => entryLe a b = true))
      ∧ (∀ (input : List (List String)) (p : CelestrakProvider),
        CelestrakProvider.from_csv input = .ok p →
        (p.entries).Pairwise (fun a b => entryLe a b = true)) := by
  refine ⟨from_entries_sorted, fun input p hp => ?_⟩
  rcases input with _ | ⟨header, rows⟩
  · simp [CelestrakProvider.from_csv] at hp
  · simp only [CelestrakProvider.from_csv] at hp
    cases hcols : find_columns header with
    | error e => rw [hcols, qtry_err] at hp; exact Except.noConfusion hp
    | ok cols =>
      rw [hcols] at hp
      simp only [qtry_ok] at hp
      cases hrows : parse_rows cols 0 rows with
      | error e => rw [hrows, qtry_err] at hp; exact Except.noConfusion hp
      | ok entries =>
        rw [hrows] at hp
        simp only [qtry_ok] at hp
        injection hp with hp
        exact hp ▸ from_entries_sorted entries

/-! ## Error-locality lemmas for the CSV parser (claim C8) -/

theorem qtry_error {ε α β : Type} {x : Except ε α} {f : α → Except ε β}
    {e : ε} (h : qtry x f = .error e) :
    x = .error e ∨ ∃ v, x = .ok v ∧ f v = .error e := by
  cases x with
  | error e2 =>
    left
    have : e2 = e := by injection h
    rw [this]
  | ok v => exact Or.inr ⟨v, rfl, h⟩

theorem get_column_error_shape {α : Type} {rowi : Nat} {row : List String}
    {i : Nat} {name : String} {parse : String → Option α} {e : Error}
    (h : get_column rowi row i name parse = .error e) :
    e = .MissingField rowi name ∨ e = .BadParse rowi name := by
  unfold get_column at h
  split at h
  · left
    have h2 : Error.MissingField rowi name = e := by injection h
    exact h2.symm
  · split at h
    · exact Except.noConfusion h
    · right
      have h2 : Error.BadParse rowi name = e := by injection h
      exact h2.symm

theorem parse_entry_error_shape {rowi : Nat} {cols : Columns}
    {row : List String} {e : Error}
    (h : parse_entry rowi cols row = .error e) :
    ∃ c, e = .MissingField rowi c ∨ e = .BadParse rowi c := by
  unfold parse_entry at h
  rcases qtry_error h with hx | ⟨_, _, h⟩
  · exact ⟨"MJD", get_column_error_shape hx⟩
  rcases qtry_error h with hx | ⟨_, _, h⟩
  · exact ⟨"X", get_column_error_shape hx⟩
  rcases qtry_error h with hx | ⟨_, _, h⟩
  · exact ⟨"Y", get_column_error_shape hx⟩
  rcases qtry_error h with hx | ⟨_, _, h⟩
  · exact ⟨"UT1-UTC", get_column_error_shape hx⟩
  rcases qtry_error h with hx | ⟨_, _, h⟩
  · exact ⟨"LOD", get_column_error_shape hx⟩
  rcases qtry_error h with hx | ⟨_, _, h⟩
  · exact ⟨"DPSI", get_column_error_shape hx⟩
  rcases qtry_error h with hx | ⟨_, _, h⟩
  · exact ⟨"DEPS", get_column_error_shape hx⟩
  rcases qtry_error h with hx | ⟨_, _, h⟩
  · exact ⟨"DX", get_column_error_shape hx⟩
  rcases qtry_error h with hx | ⟨_, _, h⟩
  · exact ⟨"DY", get_column_error_shape hx⟩
  rcases qtry_error h with hx | ⟨_, _, h⟩
  · exact ⟨"DAT", get_column_error_shape hx⟩
  rcases qtry_error h with hx | ⟨_, _, h⟩
  · exact ⟨"DATA_TYPE", get_column_error_shape hx⟩
  exact Except.noConfusion h

theorem find_column_ok_of_mem {header : List String} {name : String}
    (h : name ∈ header) : ∃ i, find_column header name = .ok i := by
  obtain ⟨i, hi⟩ :=
    position_some_of_mem (p := fun s => s == name) h (by simp)
  exact ⟨i, by simp [find_column, hi]⟩

theorem find_column_missing {header : List String} {name : String}
    (h : name ∉ header) :
    find_column header name = .error (.MissingColumn name) := by
  have hnone : position (fun s => s == name) header = none := by
    rw [position_eq_none_iff]
    intro x hx
    exact beq_eq_false_iff_ne.mpr (fun hxe => h (hxe ▸ hx))
  simp [find_column, hnone]

theorem parse_rows_first_error (cols : Columns) :
    ∀ (rows : List (List String)) (k r : Nat) (row : List String)
      (e : Error),
      rows[r]? = some row →
      (∀ i ri, i < r → rows[i]? = some ri →
        ∃ v, parse_entry (k + i) cols ri = .ok v) →
      parse_entry (k + r) cols row = .error e →
      parse_rows cols k rows = .error e := by
  intro rows
  induction rows with
  | nil => intro k r row e hr; simp at hr
  | cons row0 rest ih =>
    intro k r row e hr hprior herr
    cases r with
    | zero =>
      simp only [List.getElem?_cons_zero, Option.some.injEq] at hr
      subst hr
      simp only [Nat.add_zero] at herr
      simp only [parse_rows]
      rw [herr, qtry_err]
    | succ r2 =>
      obtain ⟨v, hv⟩ := hprior 0 row0 (by omega) (by simp)
      simp only [Nat.add_zero] at hv
      simp only [parse_rows]
      rw [hv]
      simp only [qtry_ok]
      have hr2 : rest[r2]? = some row := by simpa using hr
      have herr2 : parse_entry (k + 1 + r2) cols row = .error e := by
        have : k + 1 + r2 = k + (r2 + 1) := by omega
        rw [this]
        exact herr
      have hprior2 : ∀ i ri, i < r2 → rest[i]? = some ri →
          ∃ v2, parse_entry (k + 1 + i) cols ri = .ok v2 := by
        intro i ri hi hri
        have := hprior (i + 1) ri (by omega) (by simpa using hri)
        obtain ⟨v2, hv2⟩ := this
        refine ⟨v2, ?_⟩
        have heq : k + 1 + i = k + (i + 1) := by omega
        rw [heq]
        exact hv2
      rw [ih (k + 1) r2 row e hr2 hprior2 herr2, qtry_err]

/-- C8 counterexample: a header that lacks `DATA_TYPE` but also lacks the
columns resolved before it fails with a `MissingColumn` error naming the
earlier column (`MJD`), not `DATA_TYPE`, so the claim as stated is false. -/
theorem from_csv_missing_column_counterexample :
    ("DATA_TYPE" ∉ ["X"])
      ∧ CelestrakProvider.from_csv [["X"]]
          = .error (.MissingColumn "MJD")
      ∧ Error.MissingColumn "MJD" ≠ Error.MissingColumn "DATA_TYPE" := by
  refine ⟨by decide, by decide, by decide⟩

/-- C8 (amended): a header lacking `DATA_TYPE` fails with `MissingColumn`
naming `DATA_TYPE` provided the ten columns resolved before it are present
(in general the first missing column in resolution order is named), before
any row is parsed; and when the header resolves, the first failing data row
fails the whole parse with an error carrying that row's 0-based index and
the offending column's name, producing no table. -/
theorem from_csv_error_locality :
    (∀ (header : List String) (rows : List (List String)),
      "DATA_TYPE" ∉ header →
      "MJD" ∈ header → "X" ∈ header → "Y" ∈ header →
      "UT1-UTC" ∈ header → "LOD" ∈ header → "DPSI" ∈ header →
      "DEPS" ∈ header → "DX" ∈ header → "DY" ∈ header → "DAT" ∈ header →
      CelestrakProvider.from_csv (header :: rows)
        = .error (.MissingColumn "DATA_TYPE"))
      ∧ (∀ (header : List String) (rows : List (List String))
          (cols : Columns) (r : Nat) (row : List String) (err : Error),
        find_columns header = .ok cols →
        rows[r]? = some row →
        (∀ i ri, i < r → rows[i]? = some ri →
          ∃ v, parse_entry i cols ri = .ok v) →
        parse_entry r cols row = .error err →
        CelestrakProvider.from_csv (header :: rows) = .error err
          ∧ ∃ c, err = .MissingField r c ∨ err = .BadParse r c) := by
  constructor
  · intro header rows hDT hMJD hX hY hU hLOD hDPSI hDEPS hDX hDY hDAT
    obtain ⟨i1, h1⟩ := find_column_ok_of_mem hMJD
    obtain ⟨i2, h2⟩ := find_column_ok_of_mem hX
    obtain ⟨i3, h3⟩ := find_column_ok_of_mem hY
    obtain ⟨i4, h4⟩ := find_column_ok_of_mem hU
    obtain ⟨i5, h5⟩ := find_column_ok_of_mem hLOD
    obtain ⟨i6, h6⟩ := find_column_ok_of_mem hDPSI
    obtain ⟨i7, h7⟩ := find_column_ok_of_mem hDEPS
    obtain ⟨i8, h8⟩ := find_column_ok_of_mem hDX
    obtain ⟨i9, h9⟩ := find_column_ok_of_mem hDY
    obtain ⟨i10, h10⟩ := find_column_ok_of_mem hDAT
    have hdt := find_column_missing hDT
    simp only [CelestrakProvider.from_csv, find_columns, h1, h2, h3, h4,
      h5, h6, h7, h8, h9, h10, hdt, qtry]
  · intro header rows cols r row err hcols hr hprior herr
    have hrows : parse_rows cols 0 rows = .error err := by
      refine parse_rows_first_error cols rows 0 r row err hr ?_ ?_
      · intro i ri hi hri
        simpa using hprior i ri hi hri
      · simpa using herr
    constructor
    · simp only [CelestrakProvider.from_csv]
      rw [hcols]
      simp only [qtry_ok]
      rw [hrows, qtry_err]
    · exact parse_entry_error_shape herr

/-- C8 witness: both amended parts at concrete inputs — a ten-column header
missing only `DATA_TYPE`, and a full header with a first row whose `MJD`
field does not parse. -/
theorem from_csv_error_locality_witness :
    (("DATA_TYPE" ∉ ["MJD", "X", "Y", "UT1-UTC", "LOD", "DPSI", "DEPS",
        "DX", "DY", "DAT"]
      ∧ CelestrakProvider.from_csv
          ([["MJD", "X", "Y", "UT1-UTC", "LOD", "DPSI", "DEPS", "DX", "DY",
            "DAT"]] : List (List String))
          = .error (.MissingColumn "DATA_TYPE"))
      ∧ (find_columns sampleHeader = .ok ⟨0, 1, 2, 3, 4, 5, 6, 7, 8, 9, 10⟩
        ∧ parse_entry 0 ⟨0, 1, 2, 3, 4, 5, 6, 7, 8, 9, 10⟩ ["z"]
            = .error (.BadParse 0 "MJD")
        ∧ CelestrakProvider.from_csv [sampleHeader, ["z"]]
            = .error (.BadParse 0 "MJD"))) :=
  ⟨⟨by decide,
    (from_csv_error_locality).1 _ [] (by decide) (by decide) (by decide)
      (by decide) (by decide) (by decide) (by decide) (by decide)
      (by decide) (by decide) (by decide)⟩,
    ⟨by decide, by decide,
      ((from_csv_error_locality).2 sampleHeader [["z"]]
        ⟨0, 1, 2, 3, 4, 5, 6, 7, 8, 9, 10⟩ 0 ["z"] (.BadParse 0 "MJD")
        (by decide) (by decide)
        (fun i ri hi _ => absurd hi (Nat.not_lt_zero i))
        (by decide)).1⟩⟩

end Frameshift
